import Mathlib

/-!
Shallow embedding of `src/pythie_serving/utils.py` (pythie-serving):
tensor encode (`make_tensor_proto`), decode (`make_ndarray_from_tensor`),
and sample assembly (`parse_sample` with its three check helpers).

Modelling conventions:
* numpy scalar values are carried as their memory bit patterns: an element of
  a numeric dtype of item size `w` bytes is a natural number `< 256 ^ w`
  (two's-complement pattern for signed integers, IEEE pattern for floats);
* byte buffers (`tobytes` / `frombuffer` / `tensor_content`) are `List Nat`
  with each entry `< 256`, little-endian within one element;
* the IEEE float64 → float32 narrowing performed by `astype(np.float32)` is a
  parameter `f64to32` on pattern space, universally quantified in theorems;
* Python exceptions become constructors of `PyError` in an `Except` monad.
-/

set_option autoImplicit false

deriving instance DecidableEq for Except

namespace PythieServing

/-- The numpy element types appearing in the `_TF_TO_NP` table of the source,
plus the two extra encode-side keys `np.bytes_` and `np.str_`. -/
inductive NPDtype where
  | float16 | float32 | float64
  | int8 | int16 | int32 | int64
  | uint8 | uint16 | uint32 | uint64
  | bool_ | object_ | complex64 | complex128
  | bytes_ | str_
  deriving DecidableEq

/-- The `types_pb2.DataType` codes appearing in the `_TF_TO_NP` table. -/
inductive TfType where
  | DT_HALF | DT_FLOAT | DT_DOUBLE
  | DT_INT32 | DT_UINT8 | DT_UINT16 | DT_UINT32 | DT_UINT64
  | DT_INT16 | DT_INT8 | DT_STRING
  | DT_COMPLEX64 | DT_COMPLEX128 | DT_INT64 | DT_BOOL
  deriving DecidableEq

/-- A numpy array element.  `num p` carries the memory bit pattern of a
numeric scalar; `bstr` is a `bytes` object (list of byte values); `pstr` is a
`str` object (list of character codes); `pyint` is a plain Python integer
(only produced by `np.zeros` on an `object`-dtype array). -/
inductive NPVal where
  | num (p : Nat)
  | bstr (s : List Nat)
  | pstr (s : List Nat)
  | pyint (i : Int)
  deriving DecidableEq

/-- A numpy ndarray: dtype, shape, and the flat row-major element list. -/
structure NDArray where
  dtype : NPDtype
  shape : List Nat
  data : List NPVal
  deriving DecidableEq

/-- The wire message `tensor_pb2.TensorProto`, restricted to the fields the
source reads or writes.  `tensor_shape` is the list of `dim.size` values;
`float_val` / `double_val` carry float32 / float64 bit patterns. -/
structure TensorProto where
  dtype : TfType
  tensor_shape : List Nat
  tensor_content : List Nat
  float_val : List Nat
  double_val : List Nat
  int_val : List Int
  bool_val : List Bool
  string_val : List (List Nat)
  deriving DecidableEq

/-- The Python exceptions the source can raise, by site. -/
inductive PyError where
  /-- `TypeError` from `get_tf_type`: no `_NP_TO_TF` entry. -/
  | unknownNativeType
  /-- `TypeError("Unsupported tensor type: ...")` in `make_ndarray_from_tensor`. -/
  | unsupportedTensorType
  /-- `TypeError("... expect a list of bytes when working with DT_STRING types")`. -/
  | invalidStringElement
  /-- Python-level `TypeError` from iterating a non-iterable scalar or 0-d array. -/
  | notIterable
  /-- numpy `ValueError` (negative pad width, bad buffer size, object frombuffer). -/
  | valueError
  /-- Python `IndexError` (`features_names[0]`, `dim[0]`, column index out of range). -/
  | indexError
  /-- `PythieServingException(f"{name} not set in the predict request.")`. -/
  | missingFeature (name : String)
  /-- `PythieServingException(f"{name} has invalid length.")`. -/
  | invalidLength (name : String)
  /-- `PythieServingException("All input vectors should be 1D tensor")`. -/
  | invalidShape
  deriving DecidableEq

/-- `_NP_TO_TF` lookup keyed by `np_dtype.type`, i.e. `get_tf_type`.
`np.dtype(object).type` is `np.object_`, which is not the `object` key stored
in the table, so the `object_` dtype fails the lookup. -/
def get_tf_type : NPDtype → Except PyError TfType
  | .float16 => .ok .DT_HALF
  | .float32 => .ok .DT_FLOAT
  | .float64 => .ok .DT_DOUBLE
  | .int32 => .ok .DT_INT32
  | .uint8 => .ok .DT_UINT8
  | .uint16 => .ok .DT_UINT16
  | .uint32 => .ok .DT_UINT32
  | .uint64 => .ok .DT_UINT64
  | .int16 => .ok .DT_INT16
  | .int8 => .ok .DT_INT8
  | .complex64 => .ok .DT_COMPLEX64
  | .complex128 => .ok .DT_COMPLEX128
  | .int64 => .ok .DT_INT64
  | .bool_ => .ok .DT_BOOL
  | .bytes_ => .ok .DT_STRING
  | .str_ => .ok .DT_STRING
  | .object_ => .error .unknownNativeType

/-- `_TF_TO_NP` lookup, i.e. `get_np_dtype`.  Every `TfType` constructor is a
key of the table, so on this enumeration the lookup is total. -/
def get_np_dtype : TfType → NPDtype
  | .DT_HALF => .float16
  | .DT_FLOAT => .float32
  | .DT_DOUBLE => .float64
  | .DT_INT32 => .int32
  | .DT_UINT8 => .uint8
  | .DT_UINT16 => .uint16
  | .DT_UINT32 => .uint32
  | .DT_UINT64 => .uint64
  | .DT_INT16 => .int16
  | .DT_INT8 => .int8
  | .DT_STRING => .object_
  | .DT_COMPLEX64 => .complex64
  | .DT_COMPLEX128 => .complex128
  | .DT_INT64 => .int64
  | .DT_BOOL => .bool_

/-- numpy `dtype.itemsize` in bytes.  The `object_`, `bytes_` and `str_`
cases are never used on any path the source takes (`frombuffer` rejects
`object` before reading a width, and string arrays never go through
`tobytes`); numpy's value there is array-dependent, so any constant is safe. -/
def itemsize : NPDtype → Nat
  | .float16 => 2
  | .float32 => 4
  | .float64 => 8
  | .int8 => 1
  | .int16 => 2
  | .int32 => 4
  | .int64 => 8
  | .uint8 => 1
  | .uint16 => 2
  | .uint32 => 4
  | .uint64 => 8
  | .bool_ => 1
  | .complex64 => 8
  | .complex128 => 16
  | .object_ => 8
  | .bytes_ => 1
  | .str_ => 4

/-- The bit pattern of a numeric element (junk `0` on non-numeric objects,
which never reach a numeric memory operation on the modelled paths). -/
def patOf : NPVal → Nat
  | .num p => p
  | _ => 0

/-- Apply a function to the pattern of a numeric element (numpy `astype`
elementwise action). -/
def mapNum (f : Nat → Nat) : NPVal → NPVal
  | .num p => .num (f p)
  | v => v

/-- Little-endian byte serialization of one element pattern at width `w`. -/
def leBytes : Nat → Nat → List Nat
  | 0, _ => []
  | w + 1, p => p % 256 :: leBytes w (p / 256)

/-- Reassemble a little-endian byte list into a pattern. -/
def fromLE : List Nat → Nat
  | [] => 0
  | b :: bs => b + 256 * fromLE bs

/-- `np_array.tobytes()`: row-major concatenation of the per-element
little-endian encodings at the dtype's item size. -/
def tobytes (a : NDArray) : List Nat :=
  a.data.flatMap fun v => leBytes (itemsize a.dtype) (patOf v)

/-- Fuel-driven worker for `splitChunks`; the fuel starts at the list length
and strictly dominates the recursion depth. -/
def splitChunksAux (w : Nat) : Nat → List Nat → List (List Nat)
  | 0, _ => []
  | _ + 1, [] => []
  | fuel + 1, l => if w = 0 then [] else l.take w :: splitChunksAux w fuel (l.drop w)

/-- Split a byte list into consecutive chunks of `w` bytes (the grouping
`np.frombuffer` performs); callers first check divisibility of the length. -/
def splitChunks (w : Nat) (l : List Nat) : List (List Nat) :=
  splitChunksAux w l.length l

/-- Signed two's-complement value of a `w`-bit pattern (`w ≥ 1`), as numpy
compares signed integers of different widths by value. -/
def i2 (w : Nat) (p : Nat) : Int :=
  if p % 2 ^ w < 2 ^ (w - 1) then ((p % 2 ^ w : Nat) : Int)
  else ((p % 2 ^ w : Nat) : Int) - 2 ^ w

/-- `np.array_equal(np_array.astype(np.int32), np_array)` for an int64 array:
elementwise, the int32 value of the truncated pattern equals the int64 value
of the original pattern. -/
def losslessInt32 (data : List NPVal) : Bool :=
  data.all fun v => i2 32 (patOf v % 2 ^ 32) == i2 64 (patOf v)

/-- The precision-preference downcast at the top of `make_tensor_proto`:
float64 is narrowed to float32 unconditionally (via `f64to32`, the IEEE
narrowing on patterns), int64 is narrowed to int32 only when
`np.array_equal` finds the truncation lossless. -/
def downcast (f64to32 : Nat → Nat) (a : NDArray) : NDArray :=
  if a.dtype = .float64 then ⟨.float32, a.shape, a.data.map (mapNum f64to32)⟩
  else if a.dtype = .int64 then
    if losslessInt32 a.data then ⟨.int32, a.shape, a.data.map (mapNum (· % 2 ^ 32))⟩
    else a
  else a

/-- The element collection loop of the `DT_STRING` branch of
`make_tensor_proto`:
`for vector in np_array: for s in vector: ...` over an array of the given
shape with the given flat row-major data.  For a 2-d array the inner items
are the scalar elements; each must satisfy `isinstance(s, bytes)` or the
explicit `TypeError` is raised.  For a 1-d array the inner loop iterates
*inside* each scalar (a `bytes` yields `int`s, a `str` yields `str`s, a
number is not iterable); for arrays of 3 or more dimensions the inner items
are sub-arrays, never `bytes`.  A 0-d array cannot be iterated at all. -/
def iterBytes2D : List NPVal → Except PyError (List (List Nat))
  | [] => .ok []
  | .bstr s :: rest => (iterBytes2D rest).map (s :: ·)
  | _ :: _ => .error .invalidStringElement

/-- 1-d case of the string collection loop: iterating inside each scalar
element. An empty `bytes`/`str` contributes nothing; a non-empty one yields
non-`bytes` items (ints resp. 1-character strs) and raises; a numeric scalar
is not iterable. -/
def iterBytes1D : List NPVal → Except PyError (List (List Nat))
  | [] => .ok []
  | .bstr [] :: rest => iterBytes1D rest
  | .pstr [] :: rest => iterBytes1D rest
  | .bstr (_ :: _) :: _ => .error .invalidStringElement
  | .pstr (_ :: _) :: _ => .error .invalidStringElement
  | _ :: _ => .error .notIterable

/-- The whole `string_val` collection of `make_tensor_proto`, dispatching on
the array's dimensionality as the two nested `for` loops do. -/
def extract_string_val (shape : List Nat) (data : List NPVal) :
    Except PyError (List (List Nat)) :=
  match shape with
  | [] => .error .notIterable
  | [_] => iterBytes1D data
  | d₁ :: d₂ :: _ :: _ => if d₁ * d₂ = 0 then .ok [] else .error .invalidStringElement
  | _ :: _ :: _ => iterBytes2D data

/-- The part of `make_tensor_proto` after the downcast: resolve the tf type,
then build the proto with either the `string_val` list (for `DT_STRING`) or
the `tensor_content` raw buffer. -/
def encodePayload (a : NDArray) : Except PyError TensorProto :=
  match get_tf_type a.dtype with
  | .error e => .error e
  | .ok dtype =>
      if dtype = .DT_STRING then
        match extract_string_val a.shape a.data with
        | .error e => .error e
        | .ok sv => .ok ⟨dtype, a.shape, [], [], [], [], [], sv⟩
      else .ok ⟨dtype, a.shape, tobytes a, [], [], [], [], []⟩

/-- `make_tensor_proto(values)`, taking the already materialised
`np.asarray(values)` as input and the float64→float32 pattern narrowing as a
parameter. -/
def make_tensor_proto (f64to32 : Nat → Nat) (a₀ : NDArray) :
    Except PyError TensorProto :=
  encodePayload (downcast f64to32 a₀)

/-- Two's-complement pattern of width `w` bytes for a Python/protobuf integer
(`np.fromiter` conversion of an in-range value into a signed dtype). -/
def toPat (w : Nat) (v : Int) : Nat :=
  (v % ((2 : Int) ^ (8 * w))).toNat

/-- The typed-value-list dispatch of `make_ndarray_from_tensor` (the
`elif` chain on `tensor.dtype`), producing the flat element list read from
the matching proto field.  `DT_INT32` and `DT_INT64` both read `int_val`. -/
def valueList (t : TensorProto) : Except PyError (List NPVal) :=
  match t.dtype with
  | .DT_FLOAT => .ok (t.float_val.map NPVal.num)
  | .DT_DOUBLE => .ok (t.double_val.map NPVal.num)
  | .DT_INT32 => .ok (t.int_val.map fun v => NPVal.num (toPat 4 v))
  | .DT_INT64 => .ok (t.int_val.map fun v => NPVal.num (toPat 8 v))
  | .DT_BOOL => .ok (t.bool_val.map fun b => NPVal.num (cond b 1 0))
  | .DT_STRING => .ok (t.string_val.map NPVal.bstr)
  | _ => .error .unsupportedTensorType

/-- The element `np.zeros` writes for a dtype: pattern `0` for numerics
(`+0.0` and `False` both have an all-zero pattern), the Python integer `0`
for the `object` dtype. -/
def zeroVal : NPDtype → NPVal
  | .object_ => .pyint 0
  | .bytes_ => .bstr []
  | .str_ => .pstr []
  | _ => .num 0

/-- `np.frombuffer(buf, dtype).copy()` as the flat pattern list: rejects the
`object` dtype and buffers that are not a whole number of items. -/
def frombuffer (d : NPDtype) (buf : List Nat) : Except PyError (List Nat) :=
  if d = .object_ then .error .valueError
  else if buf.length % itemsize d = 0 then .ok ((splitChunks (itemsize d) buf).map fromLE)
  else .error .valueError

/-- `make_ndarray_from_tensor(tensor)`. -/
def make_ndarray_from_tensor (t : TensorProto) : Except PyError NDArray :=
  let shape := t.tensor_shape
  let np_dtype := get_np_dtype t.dtype
  if t.tensor_content ≠ [] then
    match frombuffer np_dtype t.tensor_content with
    | .error e => .error e
    | .ok pats =>
        if pats.length = shape.prod then .ok ⟨np_dtype, shape, pats.map NPVal.num⟩
        else .error .valueError
  else
    match valueList t with
    | .error e => .error e
    | .ok values =>
        if values.length = 0 then
          .ok ⟨np_dtype, shape, List.replicate shape.prod (zeroVal np_dtype)⟩
        else if values.length = shape.prod then
          .ok ⟨np_dtype, shape, values⟩
        else if values.length < shape.prod then
          .ok ⟨np_dtype, shape,
            values ++ List.replicate (shape.prod - values.length) (values.getLastD (.num 0))⟩
        else .error .valueError

/-- Whether a `NPVal` is a Python `bytes` object (`isinstance(s, bytes)`;
`np.bytes_` is a subclass of `bytes`, `np.str_` and numbers are not). -/
def isBstr : NPVal → Bool
  | .bstr _ => true
  | _ => false

/-- The tf types that own a typed value list in the `elif` chain of
`make_ndarray_from_tensor`. -/
def hasValueListBranch : TfType → Bool
  | .DT_FLOAT | .DT_DOUBLE | .DT_INT32 | .DT_INT64 | .DT_BOOL | .DT_STRING => true
  | _ => false

/-- One element is well formed for a dtype: byte-string dtypes hold `bytes`,
unicode dtypes hold `str`, `object` holds anything, and a numeric dtype
holds a bit pattern that fits its item width. -/
def wfVal : NPDtype → NPVal → Bool
  | .bytes_, .bstr _ => true
  | .bytes_, _ => false
  | .str_, .pstr _ => true
  | .str_, _ => false
  | .object_, _ => true
  | d, .num p => decide (p < 256 ^ itemsize d)
  | _, _ => false

/-- A well-formed ndarray: flat data length equals the shape's element count
and every element fits the dtype. -/
def WF (a : NDArray) : Bool :=
  a.data.length == a.shape.prod && a.data.all (wfVal a.dtype)

/-- The payload bytes of a `bytes` element (junk `[]` on other objects). -/
def strBytes : NPVal → List Nat
  | .bstr s => s
  | _ => []

/-- A concrete stand-in for the float64→float32 pattern narrowing, used to
instantiate universally quantified narrowing parameters on concrete inputs. -/
def f32trunc : Nat → Nat := fun p => p % 2 ^ 32

/-- Placeholder tensor for dictionary accesses that the code performs only
after a successful presence check. -/
def junkTensor : TensorProto := ⟨.DT_FLOAT, [], [], [], [], [], [], []⟩

/-- `check_request_feature_exists`: `feature_name not in request_inputs`
raises `PythieServingException(f"{feature_name} not set in the predict
request.")`.  `request_inputs` is the proto map, modelled as an association
list. -/
def check_request_feature_exists (request_inputs : List (String × TensorProto))
    (feature_name : String) : Except PyError Unit :=
  if (request_inputs.lookup feature_name).isSome then .ok ()
  else .error (.missingFeature feature_name)

/-- The first loop of `parse_sample`: presence check for every feature name,
in order, before anything is decoded. -/
def checkAllExist (request_inputs : List (String × TensorProto)) :
    List String → Except PyError Unit
  | [] => .ok ()
  | n :: rest =>
      match check_request_feature_exists request_inputs n with
      | .error e => .error e
      | .ok _ => checkAllExist request_inputs rest

/-- `check_request_valid_length`: compares
`request_inputs[feature_name].tensor_shape.dim[0].size` with `nb_samples`;
`dim[0]` on an empty repeated field raises `IndexError`. -/
def check_request_valid_length (request_inputs : List (String × TensorProto))
    (feature_name : String) (nb_samples : Nat) : Except PyError Unit :=
  match ((request_inputs.lookup feature_name).getD junkTensor).tensor_shape with
  | [] => .error .indexError
  | d :: _ => if d = nb_samples then .ok () else .error (.invalidLength feature_name)

/-- `check_array_shape`: the decoded array must be exactly 2-dimensional with
trailing dimension 1 (`len(nd_array.shape) != 2 or nd_array.shape[1] != 1`,
with Python's short-circuit `or`), else
`PythieServingException("All input vectors should be 1D tensor")`. -/
def check_array_shape (nd_array : NDArray) : Except PyError Unit :=
  if nd_array.shape.length ≠ 2 ∨ nd_array.shape.getD 1 0 ≠ 1 then
    .error .invalidShape
  else .ok ()

/-- The body of one `parse_sample` loop iteration up to the decoded array:
length check, decode, shape check, in the source's order. -/
def featureStep (request_inputs : List (String × TensorProto)) (nb_samples : Nat)
    (name : String) : Except PyError NDArray :=
  match check_request_valid_length request_inputs name nb_samples with
  | .error e => .error e
  | .ok _ =>
      match make_ndarray_from_tensor ((request_inputs.lookup name).getD junkTensor) with
      | .error e => .error e
      | .ok nd =>
          match check_array_shape nd with
          | .error e => .error e
          | .ok _ => .ok nd

/-- The per-feature loop of `parse_sample`, carrying the running column
index.  For each name, in order: the `featureStep` checks, then the column
write `samples[:, feature_index] = nd_array.reshape(-1)` — the write casts
each value to the sample matrix's dtype (`cast`) and raises `IndexError`
when the column index reaches `nb_features`.  Returns the list of written
columns. -/
def parse_sample_loop (cast : NPVal → NPVal)
    (request_inputs : List (String × TensorProto)) (nb_samples nb_features : Nat) :
    Nat → List String → Except PyError (List (List NPVal))
  | _, [] => .ok []
  | i, name :: rest =>
      match featureStep request_inputs nb_samples name with
      | .error e => .error e
      | .ok nd =>
          if i < nb_features then
            match parse_sample_loop cast request_inputs nb_samples nb_features
                (i + 1) rest with
            | .error e => .error e
            | .ok cols => .ok (nd.data.map cast :: cols)
          else .error .indexError

/-- `parse_sample(request_inputs, features_names, nb_features,
samples_dtype)`.  The result is the sample matrix as its list of columns:
`np.empty((nb_samples, nb_features), samples_dtype)` starts from
uninitialized memory, modelled by the arbitrary `garbage` column generator
for the columns the loop never writes; `cast` is the elementwise conversion
the column assignment performs into `samples_dtype`.  `features_names[0]` on
an empty list and `dim[0]` on an empty shape raise `IndexError`. -/
def parse_sample (cast : NPVal → NPVal) (garbage : Nat → List NPVal)
    (request_inputs : List (String × TensorProto)) (features_names : List String)
    (nb_features : Nat) : Except PyError (List (List NPVal)) :=
  match checkAllExist request_inputs features_names with
  | .error e => .error e
  | .ok _ =>
      match features_names with
      | [] => .error .indexError
      | n₀ :: _ =>
          match ((request_inputs.lookup n₀).getD junkTensor).tensor_shape with
          | [] => .error .indexError
          | nb_samples :: _ =>
              match parse_sample_loop cast request_inputs nb_samples nb_features 0
                  features_names with
              | .error e => .error e
              | .ok cols =>
                  .ok (cols ++ (List.range (nb_features - features_names.length)).map
                    fun j => garbage (features_names.length + j))

/-! ### Byte-level lemmas -/

theorem leBytes_length (w : Nat) : ∀ p : Nat, (leBytes w p).length = w := by
  induction w with
  | zero => intro p; rfl
  | succ w ih => intro p; simp [leBytes, ih]

theorem fromLE_leBytes (w : Nat) : ∀ p : Nat, fromLE (leBytes w p) = p % 256 ^ w := by
  induction w with
  | zero => intro p; simp [leBytes, fromLE, Nat.mod_one]
  | succ w ih =>
      intro p
      rw [leBytes, fromLE, ih, pow_succ', Nat.mod_mul]

theorem splitChunksAux_nil (w fuel : Nat) : splitChunksAux w fuel [] = [] := by
  cases fuel <;> rfl

theorem splitChunksAux_mono (w : Nat) :
    ∀ f₁ : Nat, ∀ l : List Nat, ∀ f₂ : Nat, l.length ≤ f₁ → l.length ≤ f₂ →
      splitChunksAux w f₁ l = splitChunksAux w f₂ l := by
  intro f₁
  induction f₁ with
  | zero =>
      intro l f₂ h₁ _
      have hl : l = [] := List.length_eq_zero.mp (Nat.le_zero.mp h₁)
      subst hl
      rw [splitChunksAux_nil, splitChunksAux_nil]
  | succ f ih =>
      intro l f₂ h₁ h₂
      cases l with
      | nil => rw [splitChunksAux_nil, splitChunksAux_nil]
      | cons x xs =>
          cases f₂ with
          | zero => simp at h₂
          | succ f₂' =>
              by_cases hw : w = 0
              · simp [splitChunksAux, hw]
              · simp only [splitChunksAux, hw, if_false]
                have hd : ((x :: xs).drop w).length ≤ f := by
                  simp only [List.length_drop, List.length_cons]
                  simp only [List.length_cons] at h₁
                  omega
                have hd₂ : ((x :: xs).drop w).length ≤ f₂' := by
                  simp only [List.length_drop, List.length_cons]
                  simp only [List.length_cons] at h₂
                  omega
                rw [ih _ _ hd hd₂]

theorem splitChunks_cons (w : Nat) (hw : w ≠ 0) (b rest : List Nat) (hb : b.length = w) :
    splitChunks w (b ++ rest) = b :: splitChunks w rest := by
  cases b with
  | nil => exact absurd hb.symm hw
  | cons x b' =>
      unfold splitChunks
      have hlen : ((x :: b') ++ rest).length = (b' ++ rest).length + 1 := by simp
      rw [hlen, List.cons_append]
      simp only [splitChunksAux, hw, if_false]
      rw [← List.cons_append, List.take_left' hb, List.drop_left' hb]
      have hr : rest.length ≤ (b' ++ rest).length := by
        simp only [List.length_append]
        exact Nat.le_add_left _ _
      rw [splitChunksAux_mono w _ rest _ hr le_rfl]

theorem splitChunks_flatMap {α : Type} (w : Nat) (hw : w ≠ 0) (f : α → List Nat)
    (l : List α) (hf : ∀ x ∈ l, (f x).length = w) :
    splitChunks w (l.flatMap f) = l.map f := by
  induction l with
  | nil => simp [splitChunks, splitChunksAux_nil]
  | cons x xs ih =>
      rw [List.flatMap_cons, splitChunks_cons w hw _ _ (hf x (List.mem_cons_self x xs)),
        List.map_cons, ih fun y hy => hf y (List.mem_cons_of_mem x hy)]

theorem itemsize_pos (d : NPDtype) : 0 < itemsize d := by cases d <;> decide

theorem frombuffer_tobytes (d : NPDtype) (hd : d ≠ .object_) (shape : List Nat)
    (data : List NPVal) (hb : ∀ v ∈ data, patOf v < 256 ^ itemsize d) :
    frombuffer d (tobytes ⟨d, shape, data⟩) = .ok (data.map patOf) := by
  have hw : itemsize d ≠ 0 := Nat.pos_iff_ne_zero.mp (itemsize_pos d)
  have hlens : ∀ v ∈ data, (leBytes (itemsize d) (patOf v)).length = itemsize d :=
    fun v _ => leBytes_length _ _
  have hbuf : tobytes ⟨d, shape, data⟩ =
      data.flatMap fun v => leBytes (itemsize d) (patOf v) := rfl
  have hmod : (tobytes ⟨d, shape, data⟩).length % itemsize d = 0 := by
    rw [hbuf, List.length_flatMap]
    have hsum : (data.map (List.length ∘ fun v => leBytes (itemsize d) (patOf v))).sum =
        data.length * itemsize d := by
      have hc : ∀ v ∈ data,
          (List.length ∘ fun v => leBytes (itemsize d) (patOf v)) v = itemsize d :=
        fun v hv => hlens v hv
      rw [List.map_congr_left hc]
      simp [List.map_const', List.sum_replicate, smul_eq_mul, Nat.mul_comm]
    rw [hsum]
    exact Nat.mul_mod_left _ _
  unfold frombuffer
  simp only [hd, if_false, hmod, if_true, if_pos]
  rw [hbuf, splitChunks_flatMap _ hw _ _ hlens, List.map_map]
  congr 1
  apply List.map_congr_left
  intro v hv
  simp only [Function.comp_apply]
  rw [fromLE_leBytes, Nat.mod_eq_of_lt (hb v hv)]

/-! ### Decoder lemmas -/

theorem tobytes_cons (d : NPDtype) (shape : List Nat) (v : NPVal) (rest : List NPVal) :
    tobytes ⟨d, shape, v :: rest⟩ =
      leBytes (itemsize d) (patOf v) ++ tobytes ⟨d, shape, rest⟩ := by
  simp [tobytes]

theorem tobytes_length (d : NPDtype) (shape : List Nat) :
    ∀ data : List NPVal, (tobytes ⟨d, shape, data⟩).length = data.length * itemsize d := by
  intro data
  induction data with
  | nil => simp [tobytes]
  | cons v rest ih =>
      rw [tobytes_cons, List.length_append, leBytes_length, ih, List.length_cons]
      ring

theorem tobytes_ne_nil (d : NPDtype) (shape : List Nat) (data : List NPVal)
    (h : data ≠ []) : tobytes ⟨d, shape, data⟩ ≠ [] := by
  intro hc
  have hl := tobytes_length d shape data
  rw [hc] at hl
  simp only [List.length_nil] at hl
  rcases Nat.mul_eq_zero.mp hl.symm with h0 | h0
  · exact h (List.length_eq_zero.mp h0)
  · exact Nat.pos_iff_ne_zero.mp (itemsize_pos d) h0

/-- On every `TfType` that a non-string dtype maps to, the registry
directions compose to the identity. -/
theorem np_tf_np (d : NPDtype) (tf : TfType) (h : get_tf_type d = .ok tf)
    (hs : tf ≠ .DT_STRING) : get_np_dtype tf = d := by
  revert h hs
  cases d <;> cases tf <;> decide

/-- Raw-content decoding recovers an all-numeric well-formed array. -/
theorem make_ndarray_raw (tf : TfType) (shape : List Nat) (data : List NPVal)
    (hobj : get_np_dtype tf ≠ .object_)
    (hlen : data.length = shape.prod)
    (hnum : ∀ v ∈ data, ∃ p, v = NPVal.num p)
    (hb : ∀ v ∈ data, patOf v < 256 ^ itemsize (get_np_dtype tf))
    (hne : data ≠ [])
    (fv dv : List Nat) (iv : List Int) (bv : List Bool) (sv : List (List Nat)) :
    make_ndarray_from_tensor
        ⟨tf, shape, tobytes ⟨get_np_dtype tf, shape, data⟩, fv, dv, iv, bv, sv⟩ =
      .ok ⟨get_np_dtype tf, shape, data⟩ := by
  have hc : tobytes ⟨get_np_dtype tf, shape, data⟩ ≠ [] := tobytes_ne_nil _ _ _ hne
  have hfb := frombuffer_tobytes (get_np_dtype tf) hobj shape data hb
  have hmap : (data.map patOf).map NPVal.num = data := by
    rw [List.map_map]
    have hid : ∀ v ∈ data, (NPVal.num ∘ patOf) v = v := by
      intro v hv
      obtain ⟨p, rfl⟩ := hnum v hv
      rfl
    rw [List.map_congr_left hid, List.map_id']
  unfold make_ndarray_from_tensor
  simp only [hfb, List.length_map, hlen, if_pos, hmap]
  rw [if_pos hc]

/-- When every typed value list is empty and the declared element count is
zero, decoding a content-free tensor of a supported type yields the empty
array of the declared shape. -/
theorem make_ndarray_empty_values (tf : TfType) (shape : List Nat)
    (hsup : hasValueListBranch tf = true) (hprod : shape.prod = 0) :
    make_ndarray_from_tensor ⟨tf, shape, [], [], [], [], [], []⟩ =
      .ok ⟨get_np_dtype tf, shape, []⟩ := by
  cases tf <;> simp_all [make_ndarray_from_tensor, valueList, hasValueListBranch, hprod]

/-- The 2-d string collection succeeds on all-`bytes` data and returns the
elements in order. -/
theorem iterBytes2D_map_bstr (sv : List (List Nat)) :
    iterBytes2D (sv.map NPVal.bstr) = .ok sv := by
  induction sv with
  | nil => rfl
  | cons s rest ih => simp [iterBytes2D, ih, Except.map]

/-- Conversely, a successful 2-d string collection means the data was exactly
the collected `bytes` elements. -/
theorem iterBytes2D_ok_inv : ∀ l : List NPVal, ∀ sv : List (List Nat),
    iterBytes2D l = .ok sv → l = sv.map NPVal.bstr := by
  intro l
  induction l with
  | nil =>
      intro sv h
      simp only [iterBytes2D] at h
      cases h
      rfl
  | cons v rest ih =>
      intro sv h
      cases v with
      | bstr s =>
          simp only [iterBytes2D] at h
          cases hr : iterBytes2D rest with
          | error e => rw [hr] at h; simp [Except.map] at h
          | ok sv' =>
              rw [hr] at h
              simp only [Except.map] at h
              cases h
              simp [ih sv' hr]
      | num p => simp [iterBytes2D] at h
      | pstr s => simp [iterBytes2D] at h
      | pyint i => simp [iterBytes2D] at h

/-- The 2-d string collection fails with the explicit `TypeError` as soon as
some element is not a `bytes`. -/
theorem iterBytes2D_err : ∀ l : List NPVal, (∃ v ∈ l, isBstr v = false) →
    iterBytes2D l = .error .invalidStringElement := by
  intro l
  induction l with
  | nil => rintro ⟨v, hv, _⟩; cases hv
  | cons x rest ih =>
      rintro ⟨v, hv, hnb⟩
      cases x with
      | bstr s =>
          rcases List.mem_cons.mp hv with rfl | hv'
          · simp [isBstr] at hnb
          · simp [iterBytes2D, ih ⟨v, hv', hnb⟩, Except.map]
      | num p => rfl
      | pstr s => rfl
      | pyint i => rfl

/-! ### Encoder lemmas and the round trip -/

theorem wfVal_numeric (d : NPDtype) (hd₁ : d ≠ .bytes_) (hd₂ : d ≠ .str_)
    (hd₃ : d ≠ .object_) (v : NPVal) (h : wfVal d v = true) :
    ∃ p, v = NPVal.num p ∧ p < 256 ^ itemsize d := by
  cases d <;> cases v <;> simp_all [wfVal]

theorem encodePayload_numeric (d : NPDtype) (tf : TfType) (h : get_tf_type d = .ok tf)
    (hs : tf ≠ .DT_STRING) (shape : List Nat) (data : List NPVal) :
    encodePayload ⟨d, shape, data⟩ =
      .ok ⟨tf, shape, tobytes ⟨d, shape, data⟩, [], [], [], [], []⟩ := by
  unfold encodePayload
  simp [h, hs]

theorem encodePayload_string (d : NPDtype) (h : get_tf_type d = .ok .DT_STRING)
    (shape : List Nat) (data : List NPVal) :
    encodePayload ⟨d, shape, data⟩ =
      match extract_string_val shape data with
      | .error e => .error e
      | .ok sv => .ok ⟨.DT_STRING, shape, [], [], [], [], [], sv⟩ := by
  unfold encodePayload
  simp [h]

/-- On a content-free tensor, the decoder is the zero/exact/pad/overflow
four-way split on the selected value list. -/
theorem make_ndarray_values (t : TensorProto) (hc : t.tensor_content = [])
    (vs : List NPVal) (hv : valueList t = .ok vs) :
    make_ndarray_from_tensor t =
      if vs.length = 0 then
        .ok ⟨get_np_dtype t.dtype, t.tensor_shape,
          List.replicate t.tensor_shape.prod (zeroVal (get_np_dtype t.dtype))⟩
      else if vs.length = t.tensor_shape.prod then
        .ok ⟨get_np_dtype t.dtype, t.tensor_shape, vs⟩
      else if vs.length < t.tensor_shape.prod then
        .ok ⟨get_np_dtype t.dtype, t.tensor_shape,
          vs ++ List.replicate (t.tensor_shape.prod - vs.length) (vs.getLastD (.num 0))⟩
      else .error .valueError := by
  unfold make_ndarray_from_tensor
  rw [hc, hv]
  simp

/-- Decoding a content-free `DT_STRING` tensor whose `string_val` length
matches the element count recovers the `bytes` objects (as an `object`-dtype
array). -/
theorem make_ndarray_string_exact (shape : List Nat) (sv : List (List Nat))
    (hlen : sv.length = shape.prod) :
    make_ndarray_from_tensor ⟨.DT_STRING, shape, [], [], [], [], [], sv⟩ =
      .ok ⟨.object_, shape, sv.map NPVal.bstr⟩ := by
  rw [make_ndarray_values ⟨.DT_STRING, shape, [], [], [], [], [], sv⟩ rfl
    (sv.map NPVal.bstr) rfl]
  by_cases hsv : sv = []
  · subst hsv
    have hp : shape.prod = 0 := by simpa using hlen.symm
    simp only [hp, List.length_map, List.length_nil, if_pos rfl, List.replicate_zero,
      List.map_nil]
    rfl
  · have h1 : (sv.map NPVal.bstr).length ≠ 0 := by
      simpa using fun hh => hsv (List.length_eq_zero.mp hh)
    have h2 : (sv.map NPVal.bstr).length = shape.prod := by simpa using hlen
    rw [if_neg h1, if_pos h2]
    rfl

theorem roundtrip_numeric (d : NPDtype) (tf : TfType) (h : get_tf_type d = .ok tf)
    (hs : tf ≠ .DT_STRING) (shape : List Nat) (data : List NPVal)
    (hlen : data.length = shape.prod)
    (hnum : ∀ v ∈ data, ∃ p, v = NPVal.num p)
    (hb : ∀ v ∈ data, patOf v < 256 ^ itemsize d)
    (hemp : data = [] → hasValueListBranch tf = true) (t : TensorProto)
    (henc : encodePayload ⟨d, shape, data⟩ = .ok t) :
    make_ndarray_from_tensor t = .ok ⟨d, shape, data⟩ := by
  rw [encodePayload_numeric d tf h hs shape data] at henc
  injection henc with henc
  subst henc
  have hd := np_tf_np d tf h hs
  have hdo : d ≠ .object_ := by
    intro he
    subst he
    exact Except.noConfusion h
  by_cases hne : data = []
  · subst hne
    have hz : tobytes ⟨d, shape, ([] : List NPVal)⟩ = [] := by simp [tobytes]
    have hp : shape.prod = 0 := by simpa using hlen.symm
    rw [hz, make_ndarray_empty_values tf shape (hemp rfl) hp, hd]
  · have hres := make_ndarray_raw tf shape data (by rw [hd]; exact hdo) hlen hnum
      (by rw [hd]; exact hb) hne [] [] [] [] []
    rw [hd] at hres
    exact hres

theorem roundtrip_string (d : NPDtype) (h : get_tf_type d = .ok .DT_STRING)
    (shape : List Nat) (data : List NPVal)
    (hlen : data.length = shape.prod)
    (hex : shape.length = 1 → data = []) (t : TensorProto)
    (henc : encodePayload ⟨d, shape, data⟩ = .ok t) :
    make_ndarray_from_tensor t = .ok ⟨.object_, shape, data⟩ := by
  rw [encodePayload_string d h shape data] at henc
  cases hext : extract_string_val shape data with
  | error e => rw [hext] at henc; exact Except.noConfusion henc
  | ok sv =>
      rw [hext] at henc
      injection henc with henc
      subst henc
      match shape, hlen, hex, hext with
      | [], hlen, hex, hext => simp [extract_string_val] at hext
      | [n], hlen, hex, hext =>
          have hd : data = [] := hex rfl
          subst hd
          have hsv : sv = [] := by
            simp only [extract_string_val, iterBytes1D] at hext
            injection hext with hext
            exact hext.symm
          subst hsv
          simpa using make_ndarray_string_exact [n] [] (by simpa using hlen)
      | [r, c], hlen, hex, hext =>
          have hdata : data = sv.map NPVal.bstr := by
            apply iterBytes2D_ok_inv data sv
            simpa [extract_string_val] using hext
          subst hdata
          have hsl : sv.length = [r, c].prod := by simpa using hlen
          exact make_ndarray_string_exact [r, c] sv hsl
      | r :: c :: e :: rest, hlen, hex, hext =>
          simp only [extract_string_val] at hext
          by_cases hrc : r * c = 0
          · rw [if_pos hrc] at hext
            injection hext with hext
            subst hext
            have hp : (r :: c :: e :: rest).prod = 0 := by
              rcases Nat.mul_eq_zero.mp hrc with h0 | h0 <;> simp [h0]
            have hd : data = [] := by
              apply List.length_eq_zero.mp
              rw [hlen, hp]
            subst hd
            simpa using make_ndarray_string_exact (r :: c :: e :: rest) []
              (by simp [hp] at hlen ⊢)
          · rw [if_neg hrc] at hext
            exact Except.noConfusion hext

/-- `roundtrip_numeric` with the element hypotheses packaged as `wfVal`. -/
theorem roundtrip_plain (d : NPDtype) (tf : TfType) (h : get_tf_type d = .ok tf)
    (hs : tf ≠ .DT_STRING) (shape : List Nat) (data : List NPVal)
    (hlen : data.length = shape.prod) (hall : ∀ v ∈ data, wfVal d v = true)
    (hnb : d ≠ .bytes_) (hns : d ≠ .str_) (hno : d ≠ .object_)
    (hemp : data = [] → hasValueListBranch tf = true) (t : TensorProto)
    (henc : encodePayload ⟨d, shape, data⟩ = .ok t) :
    make_ndarray_from_tensor t = .ok ⟨d, shape, data⟩ := by
  apply roundtrip_numeric d tf h hs shape data hlen ?_ ?_ hemp t henc
  · intro v hv
    obtain ⟨p, hp, _⟩ := wfVal_numeric d hnb hns hno v (hall v hv)
    exact ⟨p, hp⟩
  · intro v hv
    obtain ⟨p, rfl, hb⟩ := wfVal_numeric d hnb hns hno v (hall v hv)
    exact hb

/-- Claim C1 (amended): for every supported logical type and every
well-formed value array on which encode produces a WireTensor, decoding it
gives back the downcast of the input, elementwise and with the same shape —
quantified over the IEEE float64→float32 narrowing — except (a) 1-d
byte-string arrays with at least one element (their all-empty instances
encode to an empty value list that decodes to zeros, see the
counterexample), and (b) empty arrays of types without a typed value list
(their decode raises the unsupported-type error). -/
theorem decode_encode_roundtrip (f : Nat → Nat) (hf : ∀ p, f p < 2 ^ 32)
    (a : NDArray) (t : TensorProto) (hwf : WF a = true)
    (hstr : get_tf_type a.dtype = .ok .DT_STRING → a.shape.length = 1 → a.data = [])
    (hemp : a.data = [] → ∀ tf, get_tf_type a.dtype = .ok tf →
      hasValueListBranch tf = true)
    (henc : make_tensor_proto f a = .ok t) :
    ∃ b, make_ndarray_from_tensor t = .ok b ∧ b.shape = a.shape ∧
      b.data = (downcast f a).data := by
  obtain ⟨d, shape, data⟩ := a
  simp only [WF, Bool.and_eq_true, beq_iff_eq, List.all_eq_true] at hwf
  obtain ⟨hlen, hall⟩ := hwf
  unfold make_tensor_proto at henc
  cases d with
  | float64 =>
      refine ⟨⟨.float32, shape, data.map (mapNum f)⟩, ?_, rfl, rfl⟩
      apply roundtrip_numeric .float32 .DT_FLOAT rfl (by decide) shape
        (data.map (mapNum f)) (by simpa using hlen) ?_ ?_ (fun _ => by decide) t henc
      · intro v hv
        obtain ⟨x, hx, rfl⟩ := List.mem_map.mp hv
        obtain ⟨p, rfl, _⟩ := wfVal_numeric .float64 (by decide) (by decide) (by decide)
          x (hall x hx)
        exact ⟨f p, rfl⟩
      · intro v hv
        obtain ⟨x, hx, rfl⟩ := List.mem_map.mp hv
        obtain ⟨p, rfl, _⟩ := wfVal_numeric .float64 (by decide) (by decide) (by decide)
          x (hall x hx)
        simpa [mapNum, patOf] using hf p
  | int64 =>
      by_cases hl : losslessInt32 data = true
      · have hdc : downcast f ⟨.int64, shape, data⟩ =
            ⟨.int32, shape, data.map (mapNum (· % 2 ^ 32))⟩ := by
          simp [downcast, hl]
        rw [hdc] at henc
        refine ⟨⟨.int32, shape, data.map (mapNum (· % 2 ^ 32))⟩, ?_, rfl, by rw [hdc]⟩
        apply roundtrip_numeric .int32 .DT_INT32 rfl (by decide) shape
          (data.map (mapNum (· % 2 ^ 32))) (by simpa using hlen) ?_ ?_
          (fun _ => by decide) t henc
        · intro v hv
          obtain ⟨x, hx, rfl⟩ := List.mem_map.mp hv
          obtain ⟨p, rfl, _⟩ := wfVal_numeric .int64 (by decide) (by decide) (by decide)
            x (hall x hx)
          exact ⟨p % 2 ^ 32, rfl⟩
        · intro v hv
          obtain ⟨x, hx, rfl⟩ := List.mem_map.mp hv
          obtain ⟨p, rfl, _⟩ := wfVal_numeric .int64 (by decide) (by decide) (by decide)
            x (hall x hx)
          have : p % 2 ^ 32 < 2 ^ 32 := Nat.mod_lt p (by norm_num)
          simpa [mapNum, patOf] using this
      · have hdc : downcast f ⟨.int64, shape, data⟩ = ⟨.int64, shape, data⟩ := by
          simp [downcast, hl]
        rw [hdc] at henc
        refine ⟨⟨.int64, shape, data⟩, ?_, rfl, by rw [hdc]⟩
        exact roundtrip_plain .int64 .DT_INT64 rfl (by decide) shape data hlen hall
          (by decide) (by decide) (by decide) (fun _ => by decide) t henc
  | bytes_ =>
      refine ⟨⟨.object_, shape, data⟩, ?_, rfl, rfl⟩
      exact roundtrip_string .bytes_ rfl shape data hlen (hstr rfl) t henc
  | str_ =>
      refine ⟨⟨.object_, shape, data⟩, ?_, rfl, rfl⟩
      exact roundtrip_string .str_ rfl shape data hlen (hstr rfl) t henc
  | object_ => exact Except.noConfusion henc
  | float16 =>
      exact ⟨⟨.float16, shape, data⟩, roundtrip_plain .float16 .DT_HALF rfl (by decide)
        shape data hlen hall (by decide) (by decide) (by decide)
        (fun hd => hemp hd _ rfl) t henc, rfl, rfl⟩
  | float32 =>
      exact ⟨⟨.float32, shape, data⟩, roundtrip_plain .float32 .DT_FLOAT rfl (by decide)
        shape data hlen hall (by decide) (by decide) (by decide)
        (fun hd => hemp hd _ rfl) t henc, rfl, rfl⟩
  | int8 =>
      exact ⟨⟨.int8, shape, data⟩, roundtrip_plain .int8 .DT_INT8 rfl (by decide)
        shape data hlen hall (by decide) (by decide) (by decide)
        (fun hd => hemp hd _ rfl) t henc, rfl, rfl⟩
  | int16 =>
      exact ⟨⟨.int16, shape, data⟩, roundtrip_plain .int16 .DT_INT16 rfl (by decide)
        shape data hlen hall (by decide) (by decide) (by decide)
        (fun hd => hemp hd _ rfl) t henc, rfl, rfl⟩
  | int32 =>
      exact ⟨⟨.int32, shape, data⟩, roundtrip_plain .int32 .DT_INT32 rfl (by decide)
        shape data hlen hall (by decide) (by decide) (by decide)
        (fun hd => hemp hd _ rfl) t henc, rfl, rfl⟩
  | uint8 =>
      exact ⟨⟨.uint8, shape, data⟩, roundtrip_plain .uint8 .DT_UINT8 rfl (by decide)
        shape data hlen hall (by decide) (by decide) (by decide)
        (fun hd => hemp hd _ rfl) t henc, rfl, rfl⟩
  | uint16 =>
      exact ⟨⟨.uint16, shape, data⟩, roundtrip_plain .uint16 .DT_UINT16 rfl (by decide)
        shape data hlen hall (by decide) (by decide) (by decide)
        (fun hd => hemp hd _ rfl) t henc, rfl, rfl⟩
  | uint32 =>
      exact ⟨⟨.uint32, shape, data⟩, roundtrip_plain .uint32 .DT_UINT32 rfl (by decide)
        shape data hlen hall (by decide) (by decide) (by decide)
        (fun hd => hemp hd _ rfl) t henc, rfl, rfl⟩
  | uint64 =>
      exact ⟨⟨.uint64, shape, data⟩, roundtrip_plain .uint64 .DT_UINT64 rfl (by decide)
        shape data hlen hall (by decide) (by decide) (by decide)
        (fun hd => hemp hd _ rfl) t henc, rfl, rfl⟩
  | bool_ =>
      exact ⟨⟨.bool_, shape, data⟩, roundtrip_plain .bool_ .DT_BOOL rfl (by decide)
        shape data hlen hall (by decide) (by decide) (by decide)
        (fun hd => hemp hd _ rfl) t henc, rfl, rfl⟩
  | complex64 =>
      exact ⟨⟨.complex64, shape, data⟩, roundtrip_plain .complex64 .DT_COMPLEX64 rfl
        (by decide) shape data hlen hall (by decide) (by decide) (by decide)
        (fun hd => hemp hd _ rfl) t henc, rfl, rfl⟩
  | complex128 =>
      exact ⟨⟨.complex128, shape, data⟩, roundtrip_plain .complex128 .DT_COMPLEX128 rfl
        (by decide) shape data hlen hall (by decide) (by decide) (by decide)
        (fun hd => hemp hd _ rfl) t henc, rfl, rfl⟩

/-! ### Arithmetic characterisation of the int64→int32 downcast test -/

theorem i2_32_64 (p : Nat) (hp : p < 2 ^ 64) :
    (i2 32 (p % 2 ^ 32) = i2 64 p) ↔
      (-(2 : Int) ^ 31 ≤ i2 64 p ∧ i2 64 p < 2 ^ 31) := by
  unfold i2
  simp only [show (32 : Nat) - 1 = 31 from rfl, show (64 : Nat) - 1 = 63 from rfl]
  rw [Nat.mod_eq_of_lt hp, Nat.mod_mod_of_dvd _ dvd_rfl]
  split_ifs <;> push_cast <;> omega

theorem splitChunks_length_exact (w : Nat) (hw : w ≠ 0) :
    ∀ n : Nat, ∀ l : List Nat, l.length = n * w → (splitChunks w l).length = n := by
  intro n
  induction n with
  | zero =>
      intro l h
      have hl : l = [] := List.length_eq_zero.mp (by simpa using h)
      subst hl
      simp [splitChunks, splitChunksAux_nil]
  | succ n ih =>
      intro l h
      have hwle : w ≤ l.length := by
        rw [h, Nat.succ_mul]
        exact Nat.le_add_left _ _
      have h1 : (l.take w).length = w := by
        rw [List.length_take]
        exact Nat.min_eq_left hwle
      have hsplit : l = l.take w ++ l.drop w := (List.take_append_drop w l).symm
      rw [hsplit, splitChunks_cons w hw _ _ h1, List.length_cons]
      have h2 : (l.drop w).length = n * w := by
        rw [List.length_drop, h, Nat.succ_mul, Nat.add_sub_cancel]
      rw [ih (l.drop w) h2]

/-! ### Claims -/

/-- Claim C2: on encode, a float64 array is narrowed to float32
unconditionally, and an int64 array is narrowed to int32 exactly when
`np.array_equal` finds the truncation elementwise equal to the original —
which, for 64-bit patterns, is exactly the condition that every value lies
in the signed 32-bit range. -/
theorem encode_downcast (f : Nat → Nat) (a : NDArray) :
    (a.dtype = .float64 →
      make_tensor_proto f a =
        .ok ⟨.DT_FLOAT, a.shape, tobytes ⟨.float32, a.shape, a.data.map (mapNum f)⟩,
          [], [], [], [], []⟩) ∧
    (a.dtype = .int64 → losslessInt32 a.data = true →
      make_tensor_proto f a =
        .ok ⟨.DT_INT32, a.shape,
          tobytes ⟨.int32, a.shape, a.data.map (mapNum (· % 2 ^ 32))⟩,
          [], [], [], [], []⟩) ∧
    (a.dtype = .int64 → losslessInt32 a.data = false →
      make_tensor_proto f a =
        .ok ⟨.DT_INT64, a.shape, tobytes ⟨.int64, a.shape, a.data⟩,
          [], [], [], [], []⟩) ∧
    ((∀ v ∈ a.data, patOf v < 2 ^ 64) →
      (losslessInt32 a.data = true ↔
        ∀ v ∈ a.data, -(2 : Int) ^ 31 ≤ i2 64 (patOf v) ∧ i2 64 (patOf v) < 2 ^ 31)) := by
  refine ⟨?_, ?_, ?_, ?_⟩
  · intro h
    unfold make_tensor_proto
    have hdc : downcast f a = ⟨.float32, a.shape, a.data.map (mapNum f)⟩ := by
      unfold downcast
      rw [if_pos h]
    rw [hdc]
    exact encodePayload_numeric .float32 .DT_FLOAT rfl (by decide) _ _
  · intro h hl
    unfold make_tensor_proto
    have hne : ¬a.dtype = .float64 := by rw [h]; decide
    have hdc : downcast f a = ⟨.int32, a.shape, a.data.map (mapNum (· % 2 ^ 32))⟩ := by
      unfold downcast
      rw [if_neg hne, if_pos h, if_pos hl]
    rw [hdc]
    exact encodePayload_numeric .int32 .DT_INT32 rfl (by decide) _ _
  · intro h hl
    unfold make_tensor_proto
    have hne : ¬a.dtype = .float64 := by rw [h]; decide
    have hnl : ¬losslessInt32 a.data = true := by rw [hl]; decide
    have hdc : downcast f a = ⟨.int64, a.shape, a.data⟩ := by
      unfold downcast
      rw [if_neg hne, if_pos h, if_neg hnl, ← h]
    rw [hdc]
    exact encodePayload_numeric .int64 .DT_INT64 rfl (by decide) _ _
  · intro hbd
    unfold losslessInt32
    rw [List.all_eq_true]
    constructor
    · intro h v hv
      have hh := h v hv
      rw [beq_iff_eq] at hh
      exact (i2_32_64 (patOf v) (hbd v hv)).mp hh
    · intro h v hv
      rw [beq_iff_eq]
      exact (i2_32_64 (patOf v) (hbd v hv)).mpr (h v hv)

/-- Witness for C2: `[1 <<< 40, 2]` stays int64, `[7, 2]` narrows to int32,
and a float64 array narrows to float32 through the narrowing function. -/
theorem encode_downcast_witness :
    make_tensor_proto f32trunc ⟨.int64, [2], [.num (2 ^ 40), .num 2]⟩ =
      .ok ⟨.DT_INT64, [2], tobytes ⟨.int64, [2], [.num (2 ^ 40), .num 2]⟩,
        [], [], [], [], []⟩ ∧
    make_tensor_proto f32trunc ⟨.int64, [2], [.num 7, .num 2]⟩ =
      .ok ⟨.DT_INT32, [2], tobytes ⟨.int32, [2], [.num 7, .num 2]⟩,
        [], [], [], [], []⟩ ∧
    make_tensor_proto f32trunc ⟨.float64, [1], [.num (2 ^ 40)]⟩ =
      .ok ⟨.DT_FLOAT, [1], tobytes ⟨.float32, [1], [.num (f32trunc (2 ^ 40))]⟩,
        [], [], [], [], []⟩ := by
  refine ⟨?_, ?_, ?_⟩
  · exact (encode_downcast f32trunc ⟨.int64, [2], [.num (2 ^ 40), .num 2]⟩).2.2.1 rfl
      (by decide)
  · exact ((encode_downcast f32trunc ⟨.int64, [2], [.num 7, .num 2]⟩).2.1 rfl
      (by decide)).trans (by decide)
  · exact ((encode_downcast f32trunc ⟨.float64, [1], [.num (2 ^ 40)]⟩).1 rfl).trans
      (by decide)

/-- Claim C3: with a non-empty raw-bytes payload, decode never consults the
typed value lists, and (for a resolvable non-object element type and a
buffer of exactly element-count×width bytes) it reinterprets the buffer as
the flat pattern list at the resolved width and reshapes it to the declared
shape. -/
theorem decode_raw_content (dt : TfType) (s c : List Nat) (hc : c ≠ [])
    (fv dv fv' dv' : List Nat) (iv iv' : List Int) (bv bv' : List Bool)
    (sv sv' : List (List Nat)) :
    make_ndarray_from_tensor ⟨dt, s, c, fv, dv, iv, bv, sv⟩ =
      make_ndarray_from_tensor ⟨dt, s, c, fv', dv', iv', bv', sv'⟩ ∧
    (get_np_dtype dt ≠ .object_ →
      c.length = s.prod * itemsize (get_np_dtype dt) →
      make_ndarray_from_tensor ⟨dt, s, c, fv, dv, iv, bv, sv⟩ =
        .ok ⟨get_np_dtype dt, s,
          ((splitChunks (itemsize (get_np_dtype dt)) c).map fromLE).map NPVal.num⟩) := by
  constructor
  · simp [make_ndarray_from_tensor, hc]
  · intro hobj hsz
    have hw : itemsize (get_np_dtype dt) ≠ 0 :=
      Nat.pos_iff_ne_zero.mp (itemsize_pos _)
    have hfb : frombuffer (get_np_dtype dt) c =
        .ok ((splitChunks (itemsize (get_np_dtype dt)) c).map fromLE) := by
      unfold frombuffer
      rw [if_neg hobj, if_pos (by rw [hsz]; exact Nat.mul_mod_left _ _)]
    have hlen2 : ((splitChunks (itemsize (get_np_dtype dt)) c).map fromLE).length =
        s.prod := by
      rw [List.length_map, splitChunks_length_exact _ hw s.prod c hsz]
    simp [make_ndarray_from_tensor, hc, hfb, hlen2]

/-- Witness for C3: a two-float32 buffer, decoded against two different sets
of junk value lists. -/
theorem decode_raw_content_witness :
    (leBytes 4 77 ++ leBytes 4 5 : List Nat) ≠ [] ∧
    make_ndarray_from_tensor
        ⟨.DT_FLOAT, [2], leBytes 4 77 ++ leBytes 4 5, [9], [9], [9], [true], [[9]]⟩ =
      make_ndarray_from_tensor
        ⟨.DT_FLOAT, [2], leBytes 4 77 ++ leBytes 4 5, [], [3], [7], [], []⟩ ∧
    make_ndarray_from_tensor
        ⟨.DT_FLOAT, [2], leBytes 4 77 ++ leBytes 4 5, [9], [9], [9], [true], [[9]]⟩ =
      .ok ⟨.float32, [2], [.num 77, .num 5]⟩ := by
  refine ⟨by decide, ?_, ?_⟩
  · exact (decode_raw_content .DT_FLOAT [2] (leBytes 4 77 ++ leBytes 4 5) (by decide)
      [9] [9] [] [3] [9] [7] [true] [] [[9]] []).1
  · exact ((decode_raw_content .DT_FLOAT [2] (leBytes 4 77 ++ leBytes 4 5) (by decide)
      [9] [9] [] [3] [9] [7] [true] [] [[9]] []).2 (by decide) (by decide)).trans
      (by decide)

/-- Claim C4: with no raw payload and a non-empty selected value list
shorter than the declared element count, decode pads by replicating the last
value up to the element count (the np.pad edge policy) and reshapes. -/
theorem decode_pad_short (t : TensorProto) (hc : t.tensor_content = [])
    (vs : List NPVal) (hv : valueList t = .ok vs)
    (h0 : vs ≠ []) (hlt : vs.length < t.tensor_shape.prod) :
    make_ndarray_from_tensor t =
      .ok ⟨get_np_dtype t.dtype, t.tensor_shape,
        vs ++ List.replicate (t.tensor_shape.prod - vs.length)
          (vs.getLastD (.num 0))⟩ := by
  rw [make_ndarray_values t hc vs hv]
  have h1 : vs.length ≠ 0 := fun hh => h0 (List.length_eq_zero.mp hh)
  have h2 : vs.length ≠ t.tensor_shape.prod := Nat.ne_of_lt hlt
  rw [if_neg h1, if_neg h2, if_pos hlt]

/-- Witness for C4: integer tensor, Shape=[2,2], int list [1,2,3] decodes to
[[1,2],[3,3]] (row-major flat form [1,2,3,3]). -/
theorem decode_pad_short_witness :
    make_ndarray_from_tensor ⟨.DT_INT32, [2, 2], [], [], [], [1, 2, 3], [], []⟩ =
      .ok ⟨.int32, [2, 2], [.num 1, .num 2, .num 3, .num 3]⟩ :=
  (decode_pad_short ⟨.DT_INT32, [2, 2], [], [], [], [1, 2, 3], [], []⟩ rfl
    [.num 1, .num 2, .num 3] (by decide) (by decide) (by decide)).trans (by decide)

/-- Claim C5: with no raw payload and an empty selected value list, decode
returns the all-zero array of the declared shape at the resolved element
type, and raises no error. -/
theorem decode_empty_values_zeros (t : TensorProto) (hc : t.tensor_content = [])
    (hv : valueList t = .ok []) :
    make_ndarray_from_tensor t =
      .ok ⟨get_np_dtype t.dtype, t.tensor_shape,
        List.replicate t.tensor_shape.prod (zeroVal (get_np_dtype t.dtype))⟩ := by
  rw [make_ndarray_values t hc [] hv]
  rfl

/-- Witness for C5: an empty double list with shape [2] gives float64 zeros. -/
theorem decode_empty_values_zeros_witness :
    make_ndarray_from_tensor ⟨.DT_DOUBLE, [2], [], [], [], [], [], []⟩ =
      .ok ⟨.float64, [2], [.num 0, .num 0]⟩ :=
  (decode_empty_values_zeros ⟨.DT_DOUBLE, [2], [], [], [], [], [], []⟩ rfl rfl).trans
    (by decide)

/-- Claim C6: with no raw payload, decode dispatches on the type code to the
matching value list — `DT_FLOAT`→float list, `DT_DOUBLE`→double list,
`DT_INT32` and `DT_INT64` both→the shared integer list, `DT_BOOL`→bool list,
`DT_STRING`→byte-string list (each conjunct below shows the result depends
only on that list) — and every other type code fails with the
"Unsupported tensor type" `TypeError`. -/
theorem decode_dispatch :
    (∀ s : List Nat, ∀ fv dv : List Nat, ∀ iv : List Int, ∀ bv : List Bool,
      ∀ sv : List (List Nat),
      make_ndarray_from_tensor ⟨.DT_HALF, s, [], fv, dv, iv, bv, sv⟩ =
          .error .unsupportedTensorType ∧
      make_ndarray_from_tensor ⟨.DT_UINT8, s, [], fv, dv, iv, bv, sv⟩ =
          .error .unsupportedTensorType ∧
      make_ndarray_from_tensor ⟨.DT_UINT16, s, [], fv, dv, iv, bv, sv⟩ =
          .error .unsupportedTensorType ∧
      make_ndarray_from_tensor ⟨.DT_UINT32, s, [], fv, dv, iv, bv, sv⟩ =
          .error .unsupportedTensorType ∧
      make_ndarray_from_tensor ⟨.DT_UINT64, s, [], fv, dv, iv, bv, sv⟩ =
          .error .unsupportedTensorType ∧
      make_ndarray_from_tensor ⟨.DT_INT8, s, [], fv, dv, iv, bv, sv⟩ =
          .error .unsupportedTensorType ∧
      make_ndarray_from_tensor ⟨.DT_INT16, s, [], fv, dv, iv, bv, sv⟩ =
          .error .unsupportedTensorType ∧
      make_ndarray_from_tensor ⟨.DT_COMPLEX64, s, [], fv, dv, iv, bv, sv⟩ =
          .error .unsupportedTensorType ∧
      make_ndarray_from_tensor ⟨.DT_COMPLEX128, s, [], fv, dv, iv, bv, sv⟩ =
          .error .unsupportedTensorType) ∧
    (∀ s : List Nat, ∀ fv dv fv' dv' : List Nat, ∀ iv : List Int, ∀ bv bv' : List Bool,
      ∀ sv sv' : List (List Nat),
      make_ndarray_from_tensor ⟨.DT_INT32, s, [], fv, dv, iv, bv, sv⟩ =
        make_ndarray_from_tensor ⟨.DT_INT32, s, [], fv', dv', iv, bv', sv'⟩ ∧
      make_ndarray_from_tensor ⟨.DT_INT64, s, [], fv, dv, iv, bv, sv⟩ =
        make_ndarray_from_tensor ⟨.DT_INT64, s, [], fv', dv', iv, bv', sv'⟩) ∧
    (∀ s fv : List Nat, ∀ dv dv' : List Nat, ∀ iv iv' : List Int,
      ∀ bv bv' : List Bool, ∀ sv sv' : List (List Nat),
      make_ndarray_from_tensor ⟨.DT_FLOAT, s, [], fv, dv, iv, bv, sv⟩ =
        make_ndarray_from_tensor ⟨.DT_FLOAT, s, [], fv, dv', iv', bv', sv'⟩) ∧
    (∀ s dv : List Nat, ∀ fv fv' : List Nat, ∀ iv iv' : List Int,
      ∀ bv bv' : List Bool, ∀ sv sv' : List (List Nat),
      make_ndarray_from_tensor ⟨.DT_DOUBLE, s, [], fv, dv, iv, bv, sv⟩ =
        make_ndarray_from_tensor ⟨.DT_DOUBLE, s, [], fv', dv, iv', bv', sv'⟩) ∧
    (∀ s : List Nat, ∀ bv : List Bool, ∀ fv fv' dv dv' : List Nat,
      ∀ iv iv' : List Int, ∀ sv sv' : List (List Nat),
      make_ndarray_from_tensor ⟨.DT_BOOL, s, [], fv, dv, iv, bv, sv⟩ =
        make_ndarray_from_tensor ⟨.DT_BOOL, s, [], fv', dv', iv', bv, sv'⟩) ∧
    (∀ s : List Nat, ∀ sv : List (List Nat), ∀ fv fv' dv dv' : List Nat,
      ∀ iv iv' : List Int, ∀ bv bv' : List Bool,
      make_ndarray_from_tensor ⟨.DT_STRING, s, [], fv, dv, iv, bv, sv⟩ =
        make_ndarray_from_tensor ⟨.DT_STRING, s, [], fv', dv', iv', bv', sv⟩) :=
  ⟨fun _ _ _ _ _ _ => ⟨rfl, rfl, rfl, rfl, rfl, rfl, rfl, rfl, rfl⟩,
    fun _ _ _ _ _ _ _ _ _ _ => ⟨rfl, rfl⟩,
    fun _ _ _ _ _ _ _ _ _ _ => rfl,
    fun _ _ _ _ _ _ _ _ _ _ => rfl,
    fun _ _ _ _ _ _ _ _ _ _ => rfl,
    fun _ _ _ _ _ _ _ _ _ _ => rfl⟩

/-- Claim C10 (implicit): with no raw payload and a selected value list
longer than the declared element count, decode raises (negative np.pad
width) instead of truncating. -/
theorem decode_overlong_values_error (t : TensorProto) (hc : t.tensor_content = [])
    (vs : List NPVal) (hv : valueList t = .ok vs)
    (hgt : t.tensor_shape.prod < vs.length) :
    make_ndarray_from_tensor t = .error .valueError := by
  rw [make_ndarray_values t hc vs hv]
  have h1 : vs.length ≠ 0 := by omega
  have h2 : vs.length ≠ t.tensor_shape.prod := by omega
  have h3 : ¬vs.length < t.tensor_shape.prod := by omega
  rw [if_neg h1, if_neg h2, if_neg h3]

/-- Witness for C10: two integers against a one-element shape fail. -/
theorem decode_overlong_values_error_witness :
    make_ndarray_from_tensor ⟨.DT_INT32, [1], [], [], [], [1, 2], [], []⟩ =
      .error .valueError :=
  decode_overlong_values_error ⟨.DT_INT32, [1], [], [], [], [1, 2], [], []⟩ rfl
    [.num 1, .num 2] (by decide) (by decide)

/-- Counterexample to C1 as stated: the 1-d byte-string array holding one
empty `bytes` (numpy's `asarray([b""])`) is well formed and encodes
successfully, but its WireTensor carries an empty value list, so decoding
yields the zeros fallback instead of the original array (the downcast is the
identity on byte-string arrays). -/
theorem decode_encode_roundtrip_counterexample :
    WF ⟨.bytes_, [1], [.bstr []]⟩ = true ∧
    make_tensor_proto f32trunc ⟨.bytes_, [1], [.bstr []]⟩ =
      .ok ⟨.DT_STRING, [1], [], [], [], [], [], []⟩ ∧
    make_ndarray_from_tensor ⟨.DT_STRING, [1], [], [], [], [], [], []⟩ =
      .ok ⟨.object_, [1], [.pyint 0]⟩ ∧
    (downcast f32trunc ⟨.bytes_, [1], [.bstr []]⟩).data ≠ [NPVal.pyint 0] := by
  decide

/-- Witness for C1: an int64 array with a value outside the int32 range
round-trips unchanged (no downcast applies). -/
theorem decode_encode_roundtrip_witness :
    ∃ b, make_ndarray_from_tensor
        ⟨.DT_INT64, [3], tobytes ⟨.int64, [3], [.num 1, .num (2 ^ 40), .num 5]⟩,
          [], [], [], [], []⟩ = .ok b ∧
      b.shape = [3] ∧ b.data = [.num 1, .num (2 ^ 40), .num 5] := by
  obtain ⟨b, h1, h2, h3⟩ := decode_encode_roundtrip f32trunc
    (fun p => Nat.mod_lt p (by norm_num))
    ⟨.int64, [3], [.num 1, .num (2 ^ 40), .num 5]⟩
    ⟨.DT_INT64, [3], tobytes ⟨.int64, [3], [.num 1, .num (2 ^ 40), .num 5]⟩,
      [], [], [], [], []⟩
    (by decide) (fun h => absurd h (by decide)) (fun h => absurd h (by decide))
    (by decide)
  exact ⟨b, h1, h2, h3.trans (by decide)⟩

/-- Counterexample to C7 as stated: on the 1-d array `asarray([b"x"])` every
element is a byte-string, yet encode raises the `InvalidStringElement`
`TypeError`, because the two nested loops iterate inside the single scalar
and see integers. -/
theorem encode_string_counterexample :
    (∀ v ∈ [NPVal.bstr [120]], isBstr v = true) ∧
    WF ⟨.bytes_, [1], [.bstr [120]]⟩ = true ∧
    make_tensor_proto f32trunc ⟨.bytes_, [1], [.bstr [120]]⟩ =
      .error .invalidStringElement := by
  decide

/-- Claim C7 (amended to 2-dimensional inputs): when the resolved logical
type is byte-string and the input array is 2-d, encode succeeds with the
typed value list of the elements (and no raw buffer) exactly when every
element is a `bytes`; any non-`bytes` element raises the
`InvalidStringElement` `TypeError`. -/
theorem encode_string_2d (f : Nat → Nat) (d : NPDtype)
    (h : get_tf_type d = .ok .DT_STRING) (r c : Nat) (data : List NPVal) :
    ((∀ v ∈ data, isBstr v = true) →
      make_tensor_proto f ⟨d, [r, c], data⟩ =
        .ok ⟨.DT_STRING, [r, c], [], [], [], [], [], data.map strBytes⟩) ∧
    ((∃ v ∈ data, isBstr v = false) →
      make_tensor_proto f ⟨d, [r, c], data⟩ = .error .invalidStringElement) := by
  have hne64 : ¬(⟨d, [r, c], data⟩ : NDArray).dtype = .float64 := by
    intro he
    have he' : d = .float64 := he
    rw [he'] at h
    exact absurd h (by decide)
  have hni64 : ¬(⟨d, [r, c], data⟩ : NDArray).dtype = .int64 := by
    intro he
    have he' : d = .int64 := he
    rw [he'] at h
    exact absurd h (by decide)
  have hdc : downcast f ⟨d, [r, c], data⟩ = ⟨d, [r, c], data⟩ := by
    unfold downcast
    rw [if_neg hne64, if_neg hni64]
  constructor
  · intro hall
    unfold make_tensor_proto
    rw [hdc, encodePayload_string d h]
    have hdata : data.map (fun v => NPVal.bstr (strBytes v)) = data := by
      have hcg : data.map (fun v => NPVal.bstr (strBytes v)) =
          data.map fun v => v := by
        apply List.map_congr_left
        intro v hv
        have := hall v hv
        cases v <;> simp_all [isBstr, strBytes]
      rw [hcg, List.map_id']
    have h2 : extract_string_val [r, c] data = .ok (data.map strBytes) := by
      show iterBytes2D data = .ok (data.map strBytes)
      conv_lhs => rw [← hdata]
      rw [show (data.map fun v => NPVal.bstr (strBytes v)) =
        (data.map strBytes).map NPVal.bstr from (List.map_map _ _ _).symm]
      exact iterBytes2D_map_bstr _
    rw [h2]
  · rintro ⟨v, hv, hnb⟩
    unfold make_tensor_proto
    rw [hdc, encodePayload_string d h]
    have h2 : extract_string_val [r, c] data = .error .invalidStringElement :=
      iterBytes2D_err data ⟨v, hv, hnb⟩
    rw [h2]

/-- Witness for C7: `[[b"x"], [b"y"]]` encodes to the byte-string value
list; the same-shaped array of integers targeted at the byte-string type
fails. -/
theorem encode_string_2d_witness :
    make_tensor_proto f32trunc ⟨.bytes_, [2, 1], [.bstr [120], .bstr [121]]⟩ =
      .ok ⟨.DT_STRING, [2, 1], [], [], [], [], [], [[120], [121]]⟩ ∧
    make_tensor_proto f32trunc ⟨.bytes_, [2, 1], [.num 1, .num 2]⟩ =
      .error .invalidStringElement := by
  constructor
  · exact ((encode_string_2d f32trunc .bytes_ rfl 2 1
      [.bstr [120], .bstr [121]]).1 (by decide)).trans (by decide)
  · exact (encode_string_2d f32trunc .bytes_ rfl 2 1 [.num 1, .num 2]).2
      ⟨.num 1, List.mem_cons_self _ _, rfl⟩

/-! ### Sample-assembly lemmas -/

theorem make_ndarray_shape (t : TensorProto) (b : NDArray)
    (h : make_ndarray_from_tensor t = .ok b) :
    b.shape = t.tensor_shape := by
  unfold make_ndarray_from_tensor at h
  by_cases hc : t.tensor_content ≠ []
  · rw [if_pos hc] at h
    cases hfb : frombuffer (get_np_dtype t.dtype) t.tensor_content with
    | error e => rw [hfb] at h; exact Except.noConfusion h
    | ok pats =>
        simp only [hfb] at h
        by_cases hl : pats.length = t.tensor_shape.prod
        · rw [if_pos hl] at h
          injection h with h
          rw [← h]
        · rw [if_neg hl] at h
          exact Except.noConfusion h
  · rw [if_neg hc] at h
    cases hv : valueList t with
    | error e => rw [hv] at h; exact Except.noConfusion h
    | ok vs =>
        simp only [hv] at h
        split_ifs at h <;> injection h with h <;> rw [← h]

theorem make_ndarray_data_length (t : TensorProto) (b : NDArray)
    (h : make_ndarray_from_tensor t = .ok b) :
    b.data.length = t.tensor_shape.prod := by
  unfold make_ndarray_from_tensor at h
  by_cases hc : t.tensor_content ≠ []
  · rw [if_pos hc] at h
    cases hfb : frombuffer (get_np_dtype t.dtype) t.tensor_content with
    | error e => rw [hfb] at h; exact Except.noConfusion h
    | ok pats =>
        simp only [hfb] at h
        by_cases hl : pats.length = t.tensor_shape.prod
        · rw [if_pos hl] at h
          injection h with h
          rw [← h]
          simpa using hl
        · rw [if_neg hl] at h
          exact Except.noConfusion h
  · rw [if_neg hc] at h
    cases hv : valueList t with
    | error e => rw [hv] at h; exact Except.noConfusion h
    | ok vs =>
        simp only [hv] at h
        split_ifs at h with h0 h1 h2
        all_goals first
          | exact Except.noConfusion h
          | (injection h with h; rw [← h]; exact h1)
          | (injection h with h; rw [← h]; simp; done)
          | (injection h with h; rw [← h];
              simp only [List.length_append, List.length_replicate]; omega)

theorem checkAllExist_ok (ri : List (String × TensorProto)) :
    ∀ names : List String, (∀ n ∈ names, (List.lookup n ri).isSome = true) →
      checkAllExist ri names = .ok () := by
  intro names
  induction names with
  | nil => intro _; rfl
  | cons n rest ih =>
      intro h
      have hn : check_request_feature_exists ri n = .ok () := by
        unfold check_request_feature_exists
        rw [if_pos (h n (List.mem_cons_self n rest))]
      simp only [checkAllExist, hn]
      exact ih fun m hm => h m (List.mem_cons_of_mem n hm)

theorem checkAllExist_missing (ri : List (String × TensorProto)) :
    ∀ pre : List String, ∀ m : String, ∀ post : List String,
      (∀ n ∈ pre, (List.lookup n ri).isSome = true) → List.lookup m ri = none →
      checkAllExist ri (pre ++ m :: post) = .error (.missingFeature m) := by
  intro pre
  induction pre with
  | nil =>
      intro m post _ hm
      rw [List.nil_append]
      have hmm : check_request_feature_exists ri m = .error (.missingFeature m) := by
        unfold check_request_feature_exists
        rw [hm]
        rfl
      simp only [checkAllExist, hmm]
  | cons p pre' ih =>
      intro m post hpre hm
      rw [List.cons_append]
      have hp : check_request_feature_exists ri p = .ok () := by
        unfold check_request_feature_exists
        rw [if_pos (hpre p (List.mem_cons_self p pre'))]
      simp only [checkAllExist, hp]
      exact ih m post (fun n hn => hpre n (List.mem_cons_of_mem p hn)) hm

theorem featureStep_ok (ri : List (String × TensorProto)) (nbs : Nat) (n : String)
    (tn : TensorProto) (nd : NDArray) (hlk : List.lookup n ri = some tn)
    (hdec : make_ndarray_from_tensor tn = .ok nd) (hsh : nd.shape = [nbs, 1]) :
    featureStep ri nbs n = .ok nd := by
  have hget : (List.lookup n ri).getD junkTensor = tn := by rw [hlk]; rfl
  have hts : tn.tensor_shape = [nbs, 1] := by
    rw [← make_ndarray_shape tn nd hdec, hsh]
  have hlen : check_request_valid_length ri n nbs = .ok () := by
    unfold check_request_valid_length
    simp only [hget, hts]
    simp
  have hshp : check_array_shape nd = .ok () := by
    unfold check_array_shape
    rw [if_neg (by simp [hsh])]
  unfold featureStep
  simp only [hlen, hget, hdec, hshp]

theorem featureStep_badlength (ri : List (String × TensorProto)) (nbs : Nat)
    (m : String) (tm : TensorProto) (dm : Nat) (srest : List Nat)
    (hlk : List.lookup m ri = some tm) (hts : tm.tensor_shape = dm :: srest)
    (hdm : dm ≠ nbs) :
    featureStep ri nbs m = .error (.invalidLength m) := by
  have hget : (List.lookup m ri).getD junkTensor = tm := by rw [hlk]; rfl
  have hlen : check_request_valid_length ri m nbs = .error (.invalidLength m) := by
    unfold check_request_valid_length
    simp only [hget, hts]
    simp [hdm]
  unfold featureStep
  simp only [hlen]

theorem featureStep_badshape (ri : List (String × TensorProto)) (nbs : Nat)
    (m : String) (tm : TensorProto) (ndm : NDArray) (srest : List Nat)
    (hlk : List.lookup m ri = some tm) (hts : tm.tensor_shape = nbs :: srest)
    (hdec : make_ndarray_from_tensor tm = .ok ndm)
    (hbad : ndm.shape.length ≠ 2 ∨ ndm.shape.getD 1 0 ≠ 1) :
    featureStep ri nbs m = .error .invalidShape := by
  have hget : (List.lookup m ri).getD junkTensor = tm := by rw [hlk]; rfl
  have hlen : check_request_valid_length ri m nbs = .ok () := by
    unfold check_request_valid_length
    simp only [hget, hts]
    simp
  have hshp : check_array_shape ndm = .error .invalidShape := by
    unfold check_array_shape
    rw [if_pos hbad]
  unfold featureStep
  simp only [hlen, hget, hdec, hshp]

theorem parse_sample_loop_ok (cast : NPVal → NPVal)
    (ri : List (String × TensorProto)) (nbs nf : Nat) (dec : String → NDArray) :
    ∀ names : List String, ∀ i : Nat,
      (∀ n ∈ names, featureStep ri nbs n = .ok (dec n)) →
      i + names.length ≤ nf →
      parse_sample_loop cast ri nbs nf i names =
        .ok (names.map fun n => (dec n).data.map cast) := by
  intro names
  induction names with
  | nil => intro i _ _; rfl
  | cons n rest ih =>
      intro i h hle
      have hi : i < nf := by
        simp only [List.length_cons] at hle
        omega
      have hrest : parse_sample_loop cast ri nbs nf (i + 1) rest =
          .ok (rest.map fun n => (dec n).data.map cast) :=
        ih (i + 1) (fun m hm => h m (List.mem_cons_of_mem n hm))
          (by simp only [List.length_cons] at hle; omega)
      simp only [parse_sample_loop, h n (List.mem_cons_self n rest), hi, if_true,
        hrest, List.map_cons]

theorem parse_sample_loop_first_error (cast : NPVal → NPVal)
    (ri : List (String × TensorProto)) (nbs nf : Nat) (dec : String → NDArray)
    (e : PyError) :
    ∀ pre : List String, ∀ i : Nat, ∀ m : String, ∀ post : List String,
      (∀ n ∈ pre, featureStep ri nbs n = .ok (dec n)) →
      i + pre.length ≤ nf →
      featureStep ri nbs m = .error e →
      parse_sample_loop cast ri nbs nf i (pre ++ m :: post) = .error e := by
  intro pre
  induction pre with
  | nil =>
      intro i m post _ _ hm
      rw [List.nil_append]
      simp only [parse_sample_loop, hm]
  | cons p pre' ih =>
      intro i m post hpre hle hm
      rw [List.cons_append]
      have hi : i < nf := by
        simp only [List.length_cons] at hle
        omega
      have hr := ih (i + 1) m post (fun n hn => hpre n (List.mem_cons_of_mem p hn))
        (by simp only [List.length_cons] at hle; omega) hm
      simp only [parse_sample_loop, hpre p (List.mem_cons_self p pre'), hi, if_true, hr]

theorem parse_sample_loop_ok_length (cast : NPVal → NPVal)
    (ri : List (String × TensorProto)) (nbs nf : Nat) :
    ∀ names : List String, ∀ i : Nat, ∀ cols : List (List NPVal),
      parse_sample_loop cast ri nbs nf i names = .ok cols →
      cols.length = names.length ∧ (names = [] ∨ i + names.length ≤ nf) := by
  intro names
  induction names with
  | nil =>
      intro i cols h
      injection h with h
      subst h
      exact ⟨rfl, Or.inl rfl⟩
  | cons n rest ih =>
      intro i cols h
      simp only [parse_sample_loop] at h
      cases hfs : featureStep ri nbs n with
      | error e => rw [hfs] at h; exact Except.noConfusion h
      | ok nd =>
          simp only [hfs] at h
          by_cases hi : i < nf
          · rw [if_pos hi] at h
            cases hlp : parse_sample_loop cast ri nbs nf (i + 1) rest with
            | error e => rw [hlp] at h; exact Except.noConfusion h
            | ok cols' =>
                simp only [hlp] at h
                injection h with h
                subst h
                obtain ⟨h1, h2⟩ := ih (i + 1) cols' hlp
                refine ⟨by simp [h1], Or.inr ?_⟩
                rcases h2 with hrest | h2
                · subst hrest
                  simpa using hi
                · simp only [List.length_cons]
                  omega
          · rw [if_neg hi] at h
            exact Except.noConfusion h

/-- Assembly aborts with the failing feature's error whenever every name is
present, the first `pre` features pass all their checks, and feature `m`
fails its step. -/
theorem parse_sample_step_error (cast : NPVal → NPVal) (garbage : Nat → List NPVal)
    (ri : List (String × TensorProto)) (pre : List String) (m : String)
    (post : List String) (nf nbs : Nat) (s₀ : List Nat) (dec : String → NDArray)
    (e : PyError)
    (hall : ∀ n ∈ pre ++ m :: post, (List.lookup n ri).isSome = true)
    (hpre : ∀ n ∈ pre, featureStep ri nbs n = .ok (dec n))
    (hlen : pre.length ≤ nf)
    (hfirst : ((List.lookup ((pre ++ m :: post).headD m) ri).getD
      junkTensor).tensor_shape = nbs :: s₀)
    (hm : featureStep ri nbs m = .error e) :
    parse_sample cast garbage ri (pre ++ m :: post) nf = .error e := by
  have hca := checkAllExist_ok ri (pre ++ m :: post) hall
  have hloop := parse_sample_loop_first_error cast ri nbs nf dec e pre 0 m post hpre
    (by omega) hm
  cases pre with
  | nil =>
      simp only [List.nil_append, List.headD_cons] at hfirst hloop hca
      simp only [parse_sample, List.nil_append, hca, hfirst, hloop]
  | cons p pre' =>
      simp only [List.cons_append, List.headD_cons] at hfirst hloop hca
      simp only [parse_sample, List.cons_append, hca, hfirst, hloop]

/-- Claim C8: when every requested feature is present and decodes to an
array of shape (nb_samples, 1) (with nb_samples read from the first
feature's leading dimension), assembly returns the nb_samples×nb_features
matrix whose i-th column is the flattened decoded array of the i-th feature
name, in order, each value cast to the sample matrix's dtype. -/
theorem parse_sample_columns (cast : NPVal → NPVal) (garbage : Nat → List NPVal)
    (ri : List (String × TensorProto)) (names : List String) (nbs : Nat)
    (dec : String → NDArray) (hne : names ≠ [])
    (h : ∀ n ∈ names, ∃ tn, List.lookup n ri = some tn ∧
      make_ndarray_from_tensor tn = .ok (dec n) ∧ (dec n).shape = [nbs, 1]) :
    parse_sample cast garbage ri names names.length =
      .ok (names.map fun n => (dec n).data.map cast) ∧
    ∀ n ∈ names, ((dec n).data.map cast).length = nbs := by
  refine ⟨?_, ?_⟩
  case refine_2 =>
    intro n hn
    obtain ⟨tn, hlk, hdec, hsh⟩ := h n hn
    have hdl := make_ndarray_data_length tn (dec n) hdec
    rw [← make_ndarray_shape tn (dec n) hdec, hsh] at hdl
    simpa using hdl
  have hstep : ∀ n ∈ names, featureStep ri nbs n = .ok (dec n) := by
    intro n hn
    obtain ⟨tn, hlk, hdec, hsh⟩ := h n hn
    exact featureStep_ok ri nbs n tn (dec n) hlk hdec hsh
  have hca : checkAllExist ri names = .ok () := by
    apply checkAllExist_ok
    intro n hn
    obtain ⟨tn, hlk, _⟩ := h n hn
    rw [hlk]
    rfl
  cases names with
  | nil => exact absurd rfl hne
  | cons n₀ rest =>
      obtain ⟨t0, hlk0, hdec0, hsh0⟩ := h n₀ (List.mem_cons_self n₀ rest)
      have hget0 : (List.lookup n₀ ri).getD junkTensor = t0 := by rw [hlk0]; rfl
      have hts0 : t0.tensor_shape = nbs :: [1] := by
        rw [← make_ndarray_shape t0 (dec n₀) hdec0, hsh0]
      have hloop := parse_sample_loop_ok cast ri nbs (n₀ :: rest).length dec
        (n₀ :: rest) 0 hstep (by simp)
      simp only [parse_sample, hca, hget0, hts0, hloop]
      simp

/-- Witness for C8: two features of five scalars each give a 5×2 matrix with
the feature columns in order. -/
theorem parse_sample_columns_witness :
    parse_sample id (fun _ => [])
        [("a", ⟨.DT_INT32, [5, 1], [], [], [], [1, 2, 3, 4, 5], [], []⟩),
          ("b", ⟨.DT_INT32, [5, 1], [], [], [], [6, 7, 8, 9, 10], [], []⟩)]
        ["a", "b"] 2 =
      .ok [[.num 1, .num 2, .num 3, .num 4, .num 5],
        [.num 6, .num 7, .num 8, .num 9, .num 10]] := by
  have h := parse_sample_columns id (fun _ => [])
    [("a", ⟨.DT_INT32, [5, 1], [], [], [], [1, 2, 3, 4, 5], [], []⟩),
      ("b", ⟨.DT_INT32, [5, 1], [], [], [], [6, 7, 8, 9, 10], [], []⟩)]
    ["a", "b"] 5
    (fun n => if n = "a" then ⟨.int32, [5, 1], [.num 1, .num 2, .num 3, .num 4, .num 5]⟩
      else ⟨.int32, [5, 1], [.num 6, .num 7, .num 8, .num 9, .num 10]⟩)
    (by decide) ?_
  · exact h.1.trans (by decide)
  · intro n hn
    rcases List.mem_cons.mp hn with rfl | hn'
    · exact ⟨⟨.DT_INT32, [5, 1], [], [], [], [1, 2, 3, 4, 5], [], []⟩,
        by decide, by decide, by decide⟩
    · rcases List.mem_cons.mp hn' with rfl | hn''
      · exact ⟨⟨.DT_INT32, [5, 1], [], [], [], [6, 7, 8, 9, 10], [], []⟩,
          by decide, by decide, by decide⟩
      · cases hn''

/-- Claim C9: assembly fails with the missing feature's error as soon as any
requested name is absent (checked for all names before any decode); with
`InvalidLength(name)` when a feature's leading dimension differs from
nb_samples; with the shape error when a decoded feature is not a 2-d column
vector; and an `ok` result is always a fully populated matrix of exactly
nb_features columns — errors abort the whole assembly. -/
theorem parse_sample_errors :
    (∀ cast : NPVal → NPVal, ∀ garbage : Nat → List NPVal,
      ∀ ri : List (String × TensorProto), ∀ pre : List String, ∀ m : String,
      ∀ post : List String, ∀ nf : Nat,
      (∀ n ∈ pre, (List.lookup n ri).isSome = true) → List.lookup m ri = none →
      parse_sample cast garbage ri (pre ++ m :: post) nf =
        .error (.missingFeature m)) ∧
    (∀ cast : NPVal → NPVal, ∀ garbage : Nat → List NPVal,
      ∀ ri : List (String × TensorProto), ∀ pre : List String, ∀ m : String,
      ∀ post : List String, ∀ nf nbs : Nat, ∀ s₀ srest : List Nat,
      ∀ dec : String → NDArray, ∀ tm : TensorProto, ∀ dm : Nat,
      (∀ n ∈ pre ++ m :: post, (List.lookup n ri).isSome = true) →
      (∀ n ∈ pre, featureStep ri nbs n = .ok (dec n)) →
      pre.length ≤ nf →
      ((List.lookup ((pre ++ m :: post).headD m) ri).getD
        junkTensor).tensor_shape = nbs :: s₀ →
      List.lookup m ri = some tm → tm.tensor_shape = dm :: srest → dm ≠ nbs →
      parse_sample cast garbage ri (pre ++ m :: post) nf =
        .error (.invalidLength m)) ∧
    (∀ cast : NPVal → NPVal, ∀ garbage : Nat → List NPVal,
      ∀ ri : List (String × TensorProto), ∀ pre : List String, ∀ m : String,
      ∀ post : List String, ∀ nf nbs : Nat, ∀ s₀ srest : List Nat,
      ∀ dec : String → NDArray, ∀ tm : TensorProto, ∀ ndm : NDArray,
      (∀ n ∈ pre ++ m :: post, (List.lookup n ri).isSome = true) →
      (∀ n ∈ pre, featureStep ri nbs n = .ok (dec n)) →
      pre.length ≤ nf →
      ((List.lookup ((pre ++ m :: post).headD m) ri).getD
        junkTensor).tensor_shape = nbs :: s₀ →
      List.lookup m ri = some tm → tm.tensor_shape = nbs :: srest →
      make_ndarray_from_tensor tm = .ok ndm →
      (ndm.shape.length ≠ 2 ∨ ndm.shape.getD 1 0 ≠ 1) →
      parse_sample cast garbage ri (pre ++ m :: post) nf = .error .invalidShape) ∧
    (∀ cast : NPVal → NPVal, ∀ garbage : Nat → List NPVal,
      ∀ ri : List (String × TensorProto), ∀ names : List String, ∀ nf : Nat,
      ∀ cols : List (List NPVal),
      parse_sample cast garbage ri names nf = .ok cols → cols.length = nf) := by
  refine ⟨?_, ?_, ?_, ?_⟩
  · intro cast garbage ri pre m post nf hpre hm
    have hca := checkAllExist_missing ri pre m post hpre hm
    simp only [parse_sample, hca]
  · intro cast garbage ri pre m post nf nbs s₀ srest dec tm dm hall hpre hlen hfirst
      hlkm htm hdm
    exact parse_sample_step_error cast garbage ri pre m post nf nbs s₀ dec
      (.invalidLength m) hall hpre hlen hfirst
      (featureStep_badlength ri nbs m tm dm srest hlkm htm hdm)
  · intro cast garbage ri pre m post nf nbs s₀ srest dec tm ndm hall hpre hlen hfirst
      hlkm htm hdec hbad
    exact parse_sample_step_error cast garbage ri pre m post nf nbs s₀ dec
      .invalidShape hall hpre hlen hfirst
      (featureStep_badshape ri nbs m tm ndm srest hlkm htm hdec hbad)
  · intro cast garbage ri names nf cols h
    cases hce : checkAllExist ri names with
    | error e =>
        have hps : parse_sample cast garbage ri names nf = .error e := by
          simp only [parse_sample, hce]
        rw [hps] at h
        exact Except.noConfusion h
    | ok u =>
        cases names with
        | nil =>
            have hps : parse_sample cast garbage ri [] nf = .error .indexError := by
              simp only [parse_sample, hce]
            rw [hps] at h
            exact Except.noConfusion h
        | cons n₀ rest =>
            cases hts : ((List.lookup n₀ ri).getD junkTensor).tensor_shape with
            | nil =>
                have hps : parse_sample cast garbage ri (n₀ :: rest) nf =
                    .error .indexError := by
                  simp only [parse_sample, hce, hts]
                rw [hps] at h
                exact Except.noConfusion h
            | cons nbs s₀ =>
                cases hlp : parse_sample_loop cast ri nbs nf 0 (n₀ :: rest) with
                | error e =>
                    have hps : parse_sample cast garbage ri (n₀ :: rest) nf =
                        .error e := by
                      simp only [parse_sample, hce, hts, hlp]
                    rw [hps] at h
                    exact Except.noConfusion h
                | ok cols' =>
                    have hps : parse_sample cast garbage ri (n₀ :: rest) nf =
                        .ok (cols' ++
                          (List.range (nf - (n₀ :: rest).length)).map
                            fun j => garbage ((n₀ :: rest).length + j)) := by
                      simp only [parse_sample, hce, hts, hlp]
                    rw [hps] at h
                    injection h with h
                    subst h
                    obtain ⟨h1, h2⟩ :=
                      parse_sample_loop_ok_length cast ri nbs nf (n₀ :: rest) 0
                        cols' hlp
                    rcases h2 with hnil | h2
                    · exact absurd hnil (by simp)
                    · simp only [List.length_append, List.length_map,
                        List.length_range, h1]
                      simp only [List.length_cons] at h2 ⊢
                      omega

/-- Witness for C9: a missing feature, a short feature, a non-column-vector
feature, and the full column count of a successful assembly, each on a
concrete request. -/
theorem parse_sample_errors_witness :
    parse_sample id (fun _ => [])
        [("a", ⟨.DT_INT32, [5, 1], [], [], [], [1, 2, 3, 4, 5], [], []⟩)]
        ["a", "b"] 2 = .error (.missingFeature "b") ∧
    parse_sample id (fun _ => [])
        [("a", ⟨.DT_INT32, [5, 1], [], [], [], [1, 2, 3, 4, 5], [], []⟩),
          ("b", ⟨.DT_INT32, [4, 1], [], [], [], [6, 7, 8, 9], [], []⟩)]
        ["a", "b"] 2 = .error (.invalidLength "b") ∧
    parse_sample id (fun _ => [])
        [("a", ⟨.DT_INT32, [5, 2], [], [], [],
          [1, 2, 3, 4, 5, 6, 7, 8, 9, 10], [], []⟩)]
        ["a"] 1 = .error .invalidShape ∧
    ([[NPVal.num 1], [NPVal.num 1]] : List (List NPVal)).length = 2 := by
  refine ⟨?_, ?_, ?_, ?_⟩
  · exact parse_sample_errors.1 id (fun _ => [])
      [("a", ⟨.DT_INT32, [5, 1], [], [], [], [1, 2, 3, 4, 5], [], []⟩)]
      ["a"] "b" [] 2 (by decide) (by decide)
  · exact parse_sample_errors.2.1 id (fun _ => [])
      [("a", ⟨.DT_INT32, [5, 1], [], [], [], [1, 2, 3, 4, 5], [], []⟩),
        ("b", ⟨.DT_INT32, [4, 1], [], [], [], [6, 7, 8, 9], [], []⟩)]
      ["a"] "b" [] 2 5 [1] [1]
      (fun _ => ⟨.int32, [5, 1], [.num 1, .num 2, .num 3, .num 4, .num 5]⟩)
      ⟨.DT_INT32, [4, 1], [], [], [], [6, 7, 8, 9], [], []⟩ 4
      (by decide) (by decide) (by decide) (by decide) (by decide) (by decide)
      (by decide)
  · exact parse_sample_errors.2.2.1 id (fun _ => [])
      [("a", ⟨.DT_INT32, [5, 2], [], [], [],
        [1, 2, 3, 4, 5, 6, 7, 8, 9, 10], [], []⟩)]
      [] "a" [] 1 5 [2] [2] (fun _ => ⟨.int32, [], []⟩)
      ⟨.DT_INT32, [5, 2], [], [], [], [1, 2, 3, 4, 5, 6, 7, 8, 9, 10], [], []⟩
      ⟨.int32, [5, 2], [.num 1, .num 2, .num 3, .num 4, .num 5, .num 6, .num 7,
        .num 8, .num 9, .num 10]⟩
      (by decide) (by decide) (by decide) (by decide) (by decide) (by decide)
      (by decide) (by decide)
  · exact parse_sample_errors.2.2.2 id (fun _ => [])
      [("a", ⟨.DT_INT32, [1, 1], [], [], [], [1], [], []⟩),
        ("b", ⟨.DT_INT32, [1, 1], [], [], [], [1], [], []⟩)]
      ["a", "b"] 2 [[NPVal.num 1], [NPVal.num 1]] (by decide)

end PythieServing
